import Mathlib

/-!
Shallow embedding of the `HaWebsocket` class (the Home Assistant websocket
core of node-red-contrib-home-assistant-websocket): the subscription
multiplexer (`subscribeEvents`), the entity/service snapshot caches
(`onClientStates`, `onClientServices`, `getStates`, `getServices`), the
event dispatcher (`onClientEvents`), the handshake/reconnect state machine
(`createSocket`'s inner `connect`/`onMessage`/`onClose` handlers), and the
post-handshake privilege gate in `connect`.
-/

namespace HaWs

/-! ### Subscription multiplexer (`subscribeEvents`) -/

/-- The wildcard token `'__ALL__'`. -/
def WILDCARD : String := "__ALL__"

/-- State owned by the multiplexer: `this.subscribedEvents` (the active
subscription set) and the key set of `this.unsubCallback` (the
unsubscribe-callback registry; the callbacks themselves are opaque). -/
structure MuxState where
  subscribedEvents : Finset String
  unsubKeys : Finset String
deriving DecidableEq

/-- Result of one `subscribeEvents` call: the new multiplexer state, the
number of `client.subscribeEvents` network calls issued, and the number of
unsubscribe callbacks invoked. -/
structure MuxResult where
  state : MuxState
  subOps : Nat
  unsubOps : Nat
deriving DecidableEq

/-- `subscribeEvents(events)` (src/unnamed/part_000 lines 118-175).
The wildcard branch: if `'__ALL__'` is already active, return; otherwise
unsubscribe every active entry other than `'__ALL__'`, then subscribe once
to all events.  The concrete branch: add `'state_changed'` and `'nodered'`,
compute `add`/`remove` set differences, rebuild
`subscribedEvents = (current ∩ old) ∪ add`, invoke and delete the callback
of each removed type, subscribe to each added type. -/
def subscribeEvents (st : MuxState) (events : Finset String) : MuxResult :=
  if WILDCARD ∈ events then
    if WILDCARD ∈ st.subscribedEvents then
      ⟨st, 0, 0⟩
    else
      let removed := st.subscribedEvents.filter (fun e => e ≠ WILDCARD)
      { state :=
          { subscribedEvents := insert WILDCARD (st.subscribedEvents \ removed)
            unsubKeys := insert WILDCARD (st.unsubKeys \ removed) }
        subOps := 1
        unsubOps := removed.card }
  else
    let current := insert "nodered" (insert "state_changed" events)
    let add := current \ st.subscribedEvents
    let remove := st.subscribedEvents \ current
    { state :=
        { subscribedEvents := (current ∩ st.subscribedEvents) ∪ add
          unsubKeys := (st.unsubKeys \ remove) ∪ add }
      subOps := add.card
      unsubOps := remove.card }

/-- The desired set as the code effectively realises it: the wildcard alone
when present, otherwise the input plus the always-included defaults
`'state_changed'` and `'nodered'`. -/
def effectiveDesired (events : Finset String) : Finset String :=
  if WILDCARD ∈ events then {WILDCARD}
  else insert "nodered" (insert "state_changed" events)

/-- The constructor state: `subscribedEvents = new Set()`,
`unsubCallback = {}`. -/
def initialMux : MuxState := ⟨∅, ∅⟩

/-- States reachable from the constructor state by some sequence of
`subscribeEvents` calls. -/
inductive ReachableMux : MuxState → Prop where
  | init : ReachableMux initialMux
  | step (st : MuxState) (S : Finset String) :
      ReachableMux st → ReachableMux (subscribeEvents st S).state

/-! ### JS object heap (for the shallow-copy semantics of `getStates` /
`getServices`) -/

/-- A JS value as the cache stores it: a primitive, a reference to a heap
object, or `null`. -/
inductive JVal where
  | prim (s : String)
  | ref (r : Nat)
  | jnull
deriving DecidableEq

/-- A JS object: an association list of fields. -/
abbrev JObj := List (String × JVal)

/-- The heap: references to objects. -/
abbrev Heap := List (Nat × JObj)

/-- Read the object a reference points at. -/
def heapGet (h : Heap) (r : Nat) : Option JObj :=
  match h with
  | [] => none
  | (r', o) :: t => if r' = r then some o else heapGet t r

/-- Read a field of an object. -/
def objGet (o : JObj) (k : String) : Option JVal :=
  match o with
  | [] => none
  | (k', v) :: t => if k' = k then some v else objGet t k

/-- Write a field of an object (`o[k] = v`). -/
def objSet (o : JObj) (k : String) (v : JVal) : JObj :=
  match o with
  | [] => [(k, v)]
  | (k', w) :: t => if k' = k then (k, v) :: t else (k', w) :: objSet t k v

/-- Write a field of the object a reference points at
(`h[r][k] = v`; no-op if the reference is dangling). -/
def setField (h : Heap) (r : Nat) (k : String) (v : JVal) : Heap :=
  match h with
  | [] => []
  | (r', o) :: t => if r' = r then (r', objSet o k v) :: t else (r', o) :: setField t r k v

/-- A reference unused by the heap. -/
def freshRef (h : Heap) : Nat :=
  (h.map Prod.fst).foldr max 0 + 1

/-- Allocate a new object, as the spread literal `{ ...o }` does: a fresh
top-level object whose fields (including object references) are copied
as-is. -/
def alloc (h : Heap) (o : JObj) : Heap × Nat :=
  ((freshRef h, o) :: h, freshRef h)

/-- `getStates(entityId?)` (src/unnamed/part_000 lines 313-325) at the heap
level.  `this.states` is the object at `statesRef`.  With an id:
`this.states[entityId] ? { ...this.states[entityId] } : null` — a shallow
spread copy of the entity record.  Without: `{ ...this.states }` — a
shallow spread copy of the mapping, whose values still reference the same
entity records. -/
def getStatesH (h : Heap) (statesRef : Nat) (entityId : Option String) : Heap × JVal :=
  match heapGet h statesRef with
  | none => (h, JVal.jnull)
  | some so =>
    match entityId with
    | none =>
      let p := alloc h so
      (p.1, JVal.ref p.2)
    | some id =>
      match objGet so id with
      | some (JVal.ref r) =>
        match heapGet h r with
        | some rec0 =>
          let p := alloc h rec0
          (p.1, JVal.ref p.2)
        | none => (h, JVal.jnull)
      | _ => (h, JVal.jnull)

/-- `getServices()` (src/unnamed/part_000 lines 327-332) at the heap level:
`{ ...this.services }`, a shallow spread copy of the services mapping. -/
def getServicesH (h : Heap) (servicesRef : Nat) : Heap × JVal :=
  match heapGet h servicesRef with
  | none => (h, JVal.jnull)
  | some so =>
    let p := alloc h so
    (p.1, JVal.ref p.2)

/-! ### Bulk snapshot handlers (`onClientStates`, `onClientServices`) -/

/-- The value-level states cache: `this.states` and `this.statesLoaded`. -/
structure StatesCache where
  states : List (String × String)
  statesLoaded : Bool
deriving DecidableEq

/-- The value-level services cache: `this.services` and
`this.servicesLoaded`. -/
structure ServicesCache where
  services : List (String × String)
  servicesLoaded : Bool
deriving DecidableEq

/-- `onClientStates(msg)` (src/unnamed/part_000 lines 177-188): a falsy or
empty payload returns immediately; otherwise the snapshot is replaced
wholesale and, on the first non-empty application, the one-time
`'ha_client:states_loaded'` notification is emitted.  Returns the new cache
and the list of emitted topics. -/
def onClientStates (c : StatesCache) (msg : Option (List (String × String))) :
    StatesCache × List String :=
  match msg with
  | none => (c, [])
  | some m =>
    if m.length = 0 then (c, [])
    else if c.statesLoaded then
      ({ states := m, statesLoaded := true }, [])
    else
      ({ states := m, statesLoaded := true }, ["ha_client:states_loaded"])

/-- `onClientServices(msg)` (src/unnamed/part_000 lines 190-201): same
discipline as `onClientStates` with the `'ha_client:services_loaded'`
notification. -/
def onClientServices (c : ServicesCache) (msg : Option (List (String × String))) :
    ServicesCache × List String :=
  match msg with
  | none => (c, [])
  | some m =>
    if m.length = 0 then (c, [])
    else if c.servicesLoaded then
      ({ services := m, servicesLoaded := true }, [])
    else
      ({ services := m, servicesLoaded := true }, ["ha_client:services_loaded"])

/-! ### Event dispatcher (`onClientEvents`) -/

/-- `msg.data`: either the literal string `'ping'` or an event-data object
with optional `entity_id`, optional `new_state` (an opaque state record,
`none` when absent or null), optional `type` and a `version` (the last two
used by the `nodered` integration branch). -/
inductive HaData where
  | ping
  | obj (entity_id : Option String) (new_state : Option String)
        (dtype : Option String) (version : Nat)
deriving DecidableEq

/-- An inbound event frame: `msg.event_type` and `msg.data`. -/
structure HaEventMsg where
  event_type : Option String
  data : Option HaData
deriving DecidableEq

/-- One observable action of the dispatcher, in program order: a snapshot
cache write (`this.states[id] = v`), an integration-version write, or an
`emit` on a topic. -/
inductive DispatchAct where
  | setState (id : String) (v : String)
  | setIntegration (n : Nat)
  | emit (topic : String)
deriving DecidableEq

/-- JS truthiness of an optional string (absent/undefined and `''` are
falsy). -/
def optTruthy : Option String → Bool
  | none => false
  | some s => !(s == "")

/-- `onClientEvents(msg)` (src/unnamed/part_000 lines 203-253) as the
ordered list of actions it performs.  Frames with no payload or a `'ping'`
payload are dropped; `'nodered'` frames update the integration version and
emit only `'integration'`; all other frames update the snapshot cache first
when they are a `state_changed` event with a truthy entity id and a truthy
new state, then emit `'ha_events:<type>'`, then (entity id present)
`'ha_events:<type>:<entityId>'`, then always `'ha_events:all'`. -/
def onClientEvents (m : Option HaEventMsg) : List DispatchAct :=
  match m with
  | none => []
  | some msg =>
    match msg.data with
    | none => []
    | some HaData.ping => []
    | some (HaData.obj eid ns dtype ver) =>
      if msg.event_type == some "nodered" then
        (if dtype == some "loaded" then [DispatchAct.setIntegration ver]
         else if dtype == some "unloaded" then [DispatchAct.setIntegration 0]
         else []) ++ [DispatchAct.emit "integration"]
      else
        (if optTruthy eid && (msg.event_type == some "state_changed") && ns.isSome then
          [DispatchAct.setState (eid.getD "") (ns.getD "")]
         else []) ++
        (if optTruthy msg.event_type then
          [DispatchAct.emit ("ha_events:" ++ msg.event_type.getD "")] ++
          (if optTruthy eid then
            [DispatchAct.emit ("ha_events:" ++ msg.event_type.getD "" ++ ":" ++ eid.getD "")]
           else [])
         else []) ++
        [DispatchAct.emit "ha_events:all"]

/-- Entity-map read (`this.states[id]`). -/
def entGet (m : List (String × String)) (id : String) : Option String :=
  match m with
  | [] => none
  | (k, v) :: t => if k = id then some v else entGet t id

/-- Entity-map write (`this.states[id] = v`). -/
def entSet (m : List (String × String)) (id : String) (v : String) :
    List (String × String) :=
  match m with
  | [] => [(id, v)]
  | (k, w) :: t => if k = id then (id, v) :: t else (k, w) :: entSet t id v

/-- Apply the cache-writing actions of a dispatcher trace to an entity
map (emissions and integration writes do not touch it). -/
def applyActs (s : List (String × String)) : List DispatchAct → List (String × String)
  | [] => s
  | DispatchAct.setState id v :: rest => applyActs (entSet s id v) rest
  | DispatchAct.setIntegration _ :: rest => applyActs s rest
  | DispatchAct.emit _ :: rest => applyActs s rest

/-- Whether an action is an `emit`. -/
def isEmit : DispatchAct → Bool
  | DispatchAct.emit _ => true
  | _ => false

/-! ### Handshake / reconnect state machine (`createSocket`) -/

/-- Handshake control messages. -/
inductive AuthMsg where
  | auth_required
  | auth_invalid
  | auth_ok
  | other
deriving DecidableEq

/-- Socket events delivered to the handshake-phase handlers. -/
inductive SockEv where
  | opened
  | msg (m : AuthMsg)
  | close
  | error
deriving DecidableEq

/-- One socket attempt inside `createSocket`'s inner `connect`: the
`invalidAuth` flag, which of the four handshake listeners are still
attached, and whether `socket.close()` has been requested. -/
structure HsAttempt where
  invalidAuth : Bool
  openL : Bool
  msgL : Bool
  closeL : Bool
  errL : Bool
  closeRequested : Bool
deriving DecidableEq

/-- Terminal outcome of the handshake promise. -/
inductive HsOutcome where
  | resolvedSock
  | rejectedInvalidAuth
deriving DecidableEq

/-- Reconnect-supervisor state: the current socket attempt, the promise
outcome, the pending retry-timer delays (milliseconds), how many times the
inner `connect` has run, and whether the CONNECTING transition of the
current attempt was emitted. -/
structure HsState where
  attempt : HsAttempt
  outcome : Option HsOutcome
  retryTimers : List Nat
  connects : Nat
  connecting : Bool
deriving DecidableEq

/-- A freshly created socket: `invalidAuth = false`, all four listeners
attached, close not requested. -/
def freshAttempt : HsAttempt := ⟨false, true, true, true, true, false⟩

/-- `connect(promResolve, promReject)` (src/unnamed/part_000 lines
369-432): set `connectionState = CONNECTING`, emit `'ha_client:connecting'`,
create a socket and attach the handshake listeners. -/
def startConnect (s : HsState) : HsState :=
  { s with attempt := freshAttempt, connects := s.connects + 1, connecting := true }

/-- `onClose` (src/unnamed/part_000 lines 416-426): detach the close
listener; if `invalidAuth`, reject the promise with the invalid-auth error;
otherwise schedule one retry timer of 5000 ms. -/
def handleClose (s : HsState) : HsState :=
  let a := { s.attempt with closeL := false }
  if s.attempt.invalidAuth then
    { s with attempt := a, outcome := some HsOutcome.rejectedInvalidAuth }
  else
    { s with attempt := a, retryTimers := s.retryTimers ++ [5000] }

/-- Deliver one socket event to whatever handshake listeners are attached.
`close` and `error` both run `onClose`; `onMessage` on `auth_invalid` sets
the flag and requests `socket.close()`, on `auth_ok` detaches all four
listeners and resolves the promise, and ignores `auth_required` and
unhandled types; `onOpen` only sends the auth frame. -/
def step (s : HsState) (e : SockEv) : HsState :=
  match e with
  | SockEv.close => if s.attempt.closeL then handleClose s else s
  | SockEv.error => if s.attempt.errL then handleClose s else s
  | SockEv.opened => s
  | SockEv.msg m =>
    if s.attempt.msgL then
      match m with
      | AuthMsg.auth_invalid =>
        { s with attempt := { s.attempt with invalidAuth := true, closeRequested := true } }
      | AuthMsg.auth_ok =>
        { s with
            attempt := { s.attempt with
                           openL := false
                           msgL := false
                           closeL := false
                           errL := false }
            outcome := some HsOutcome.resolvedSock }
      | _ => s
    else s

/-- Fire the oldest pending retry timer: `setTimeout(() => connect(...),
5000)` calls the inner `connect` again. -/
def fireRetry (s : HsState) : HsState :=
  match s.retryTimers with
  | [] => s
  | _ :: rest => startConnect { s with retryTimers := rest }

/-- One whole retry round: the socket closes (without invalid auth) and the
scheduled timer fires, starting the next attempt. -/
def retryCycle (s : HsState) : HsState :=
  fireRetry (step s SockEv.close)

/-- The supervisor state before the first inner `connect` runs. -/
def initialHs : HsState := ⟨freshAttempt, none, [], 0, false⟩

/-! ### `connect()` and the privilege gate -/

/-- The `connectionState` enum (`connectionStates` indices 0-3). -/
inductive ConnectionSt where
  | CONNECTING
  | CONNECTED
  | DISCONNECTED
  | ERROR
deriving DecidableEq

/-- Classified failures of `createConnection`. -/
inductive HaErr where
  | cannotConnect
  | invalidAuth
  | connectionLost
  | hassHostRequired
  | invalidHttpsToHttp
deriving DecidableEq

/-- The human-readable message `connect` throws for each classified
failure (src/unnamed/part_000 lines 59-74). -/
def haErrMessage : HaErr → String
  | HaErr.cannotConnect => "Cannot connect to Home Assistant server"
  | HaErr.invalidAuth => "Invalid access token or password for websocket"
  | HaErr.connectionLost => "connection lost"
  | HaErr.hassHostRequired => "Base URL not set in server config"
  | HaErr.invalidHttpsToHttp => "ERR_INVALID_HTTPS_TO_HTTP"

/-- A JS value as the `is_admin` field of the user record may hold it; an
absent field reads as `undefined`. -/
inductive JsVal where
  | undef
  | nullV
  | jbool (b : Bool)
  | jnum (n : Int)
  | jstr (s : String)
deriving DecidableEq

/-- The user record returned by `getUser`. -/
structure HaUser where
  is_admin : JsVal
deriving DecidableEq

/-- Observable connection context after `connect` returns or throws. -/
structure ConnCtx where
  connectionState : ConnectionSt
  clientClosed : Bool
  emittedConnected : Bool
deriving DecidableEq

/-- Outcome of `connect()`. -/
inductive ConnectResult where
  | success
  | failure (msg : String)
deriving DecidableEq

/-- `connect()` (src/unnamed/part_000 lines 48-116) given the handshake
outcome and the fetched user record: a classified handshake failure sets
ERROR and rethrows its message; then the privilege gate `user.is_admin ===
false` sets ERROR, closes the client and throws; otherwise `onClientOpen`
sets CONNECTED, `'ha_client:connected'` is emitted and `connect` returns
`true`.  No code path of `connect` schedules a retry timer. -/
def connectRun (hs : Except HaErr Unit) (user : HaUser) : ConnCtx × ConnectResult :=
  match hs with
  | Except.error e =>
    (⟨ConnectionSt.ERROR, false, false⟩, ConnectResult.failure (haErrMessage e))
  | Except.ok _ =>
    if user.is_admin = JsVal.jbool false then
      (⟨ConnectionSt.ERROR, true, false⟩,
       ConnectResult.failure "User required to have admin privileges in Home Assistant")
    else
      (⟨ConnectionSt.CONNECTED, false, true⟩, ConnectResult.success)

end HaWs

namespace HaWs

/-- Set identity used to normalise the rebuilt subscription set. -/
theorem inter_union_sdiff_self (c a : Finset String) : (c ∩ a) ∪ (c \ a) = c := by
  ext x
  simp only [Finset.mem_union, Finset.mem_inter, Finset.mem_sdiff]
  tauto

/-- Along any sequence of `subscribeEvents` calls, whenever the wildcard is
active it is the sole active entry. -/
theorem reachable_wildcard_alone {st : MuxState} (h : ReachableMux st) :
    WILDCARD ∈ st.subscribedEvents → st.subscribedEvents = {WILDCARD} := by
  induction h with
  | init => intro hw; simp [initialMux] at hw
  | step st S hr ih =>
    intro hw
    by_cases hS : WILDCARD ∈ S
    · by_cases hsub : WILDCARD ∈ st.subscribedEvents
      · simpa [subscribeEvents, hS, hsub] using ih hsub
      · have hrm : st.subscribedEvents.filter (fun e => e ≠ WILDCARD) =
            st.subscribedEvents := by
          apply Finset.filter_true_of_mem
          intro x hx hxw
          exact hsub (hxw ▸ hx)
        simp [subscribeEvents, hS, hsub, hrm]
    · exfalso
      simp only [subscribeEvents, hS, if_false] at hw
      rw [inter_union_sdiff_self] at hw
      simp [WILDCARD] at hw
      exact hS hw

/-- C1: for every state reachable by a sequence of `subscribeEvents` calls,
one further call issues exactly as many subscribe plus unsubscribe network
operations as the symmetric difference between the previous active set and
the effective desired set (the wildcard alone when requested, otherwise the
input plus the always-included `'state_changed'` and `'nodered'`), and the
active set afterwards equals `(active ∩ desired) ∪ (desired − active)`. -/
theorem subscribeEvents_symmDiff (st : MuxState) (S : Finset String)
    (h : ReachableMux st) :
    (subscribeEvents st S).subOps + (subscribeEvents st S).unsubOps =
      ((st.subscribedEvents \ effectiveDesired S) ∪
        (effectiveDesired S \ st.subscribedEvents)).card ∧
    (subscribeEvents st S).state.subscribedEvents =
      (st.subscribedEvents ∩ effectiveDesired S) ∪
        (effectiveDesired S \ st.subscribedEvents) := by
  by_cases hS : WILDCARD ∈ S
  · by_cases hsub : WILDCARD ∈ st.subscribedEvents
    · have hst : st.subscribedEvents = {WILDCARD} := reachable_wildcard_alone h hsub
      simp [subscribeEvents, effectiveDesired, hS, hsub, hst]
    · have hrm : st.subscribedEvents.filter (fun e => e ≠ WILDCARD) =
          st.subscribedEvents := by
        apply Finset.filter_true_of_mem
        intro x hx hxw
        exact hsub (hxw ▸ hx)
      have hd1 : st.subscribedEvents \ {WILDCARD} = st.subscribedEvents :=
        sdiff_eq_self_iff_disjoint.mpr (Finset.disjoint_singleton_left.mpr hsub)
      have hd2 : ({WILDCARD} : Finset String) \ st.subscribedEvents = {WILDCARD} :=
        sdiff_eq_self_iff_disjoint.mpr (Finset.disjoint_singleton_right.mpr hsub)
      have hdisj : Disjoint st.subscribedEvents ({WILDCARD} : Finset String) :=
        Finset.disjoint_singleton_right.mpr hsub
      constructor
      · simp only [subscribeEvents, effectiveDesired, hS, if_true, hsub, if_false,
          hrm, hd1, hd2]
        rw [Finset.card_union_of_disjoint hdisj, Finset.card_singleton]
        omega
      · simp only [subscribeEvents, effectiveDesired, hS, if_true, hsub, if_false, hrm]
        ext x
        simp only [Finset.mem_insert, Finset.mem_sdiff, Finset.mem_union,
          Finset.mem_inter, Finset.mem_singleton]
        tauto
  · have heff : effectiveDesired S = insert "nodered" (insert "state_changed" S) := by
      simp [effectiveDesired, hS]
    have hdisj :
        Disjoint (st.subscribedEvents \ insert "nodered" (insert "state_changed" S))
          ((insert "nodered" (insert "state_changed" S)) \ st.subscribedEvents) :=
      disjoint_sdiff_sdiff
    constructor
    · simp only [subscribeEvents, hS, if_false, heff]
      rw [Finset.card_union_of_disjoint hdisj]
      omega
    · simp only [subscribeEvents, hS, if_false, heff]
      ext x
      simp only [Finset.mem_union, Finset.mem_inter, Finset.mem_sdiff]
      tauto


/-- C1 witness: a concrete call from the constructor state. -/
theorem subscribeEvents_symmDiff_witness :
    (subscribeEvents initialMux {"lights_on"}).subOps +
      (subscribeEvents initialMux {"lights_on"}).unsubOps =
      ((initialMux.subscribedEvents \ effectiveDesired {"lights_on"}) ∪
        (effectiveDesired {"lights_on"} \ initialMux.subscribedEvents)).card ∧
    (subscribeEvents initialMux {"lights_on"}).state.subscribedEvents =
      (initialMux.subscribedEvents ∩ effectiveDesired {"lights_on"}) ∪
        (effectiveDesired {"lights_on"} \ initialMux.subscribedEvents) :=
  subscribeEvents_symmDiff initialMux {"lights_on"} ReachableMux.init

/-- C2: `subscribeEvents` is idempotent — repeating a call with the same
desired set issues zero subscribe and zero unsubscribe operations and
leaves both the active set and the unsubscribe-callback registry
unchanged. -/
theorem subscribeEvents_idempotent (st : MuxState) (S : Finset String) :
    subscribeEvents (subscribeEvents st S).state S =
      ⟨(subscribeEvents st S).state, 0, 0⟩ := by
  by_cases hS : WILDCARD ∈ S
  · by_cases hsub : WILDCARD ∈ st.subscribedEvents
    · simp [subscribeEvents, hS, hsub]
    · simp [subscribeEvents, hS, hsub]
  · have hWc : WILDCARD ∉ insert "nodered" (insert "state_changed" S) := by
      simp only [Finset.mem_insert, WILDCARD]
      push_neg
      refine ⟨by decide, by decide, hS⟩
    have hc1 : (subscribeEvents st S).state.subscribedEvents =
        insert "nodered" (insert "state_changed" S) := by
      simp only [subscribeEvents, hS, if_false]
      exact inter_union_sdiff_self _ _
    have key : ∀ t : MuxState,
        t.subscribedEvents = insert "nodered" (insert "state_changed" S) →
        subscribeEvents t S = ⟨t, 0, 0⟩ := by
      intro t ht
      simp only [subscribeEvents, hS, if_false, ht, Finset.inter_self,
        Finset.sdiff_self, Finset.union_empty, Finset.sdiff_empty,
        Finset.card_empty]
      rw [← ht]
    exact key _ hc1


/-- C3 counterexample: in the stated scenario — subscribe to `{'__ALL__'}`
from the fresh state, then to `{'lights_on'}` — the second call issues 4
network operations (3 subscribes plus 1 unsubscribe), not 3. -/
theorem subscribeEvents_wildcard_exit_counterexample :
    (subscribeEvents (subscribeEvents initialMux {WILDCARD}).state
        {"lights_on"}).subOps +
      (subscribeEvents (subscribeEvents initialMux {WILDCARD}).state
        {"lights_on"}).unsubOps = 4 ∧
    ¬((subscribeEvents (subscribeEvents initialMux {WILDCARD}).state
        {"lights_on"}).subOps +
      (subscribeEvents (subscribeEvents initialMux {WILDCARD}).state
        {"lights_on"}).unsubOps = 3) := by decide

/-- C3 amended: if the desired set contains the wildcard and the wildcard
is already active, the call is a no-op; if it is not yet active, every
concrete active subscription is unsubscribed and one wildcard subscription
becomes the sole active entry, regardless of the other requested types; and
on leaving wildcard mode for desired set `{'lights_on'}` the wildcard is
unsubscribed and `{'lights_on','state_changed','nodered'}` are subscribed,
totalling 4 operations (3 subscribes and 1 unsubscribe). -/
theorem subscribeEvents_wildcard (st : MuxState) (S : Finset String)
    (hS : WILDCARD ∈ S) :
    (WILDCARD ∈ st.subscribedEvents → subscribeEvents st S = ⟨st, 0, 0⟩) ∧
    (WILDCARD ∉ st.subscribedEvents →
      (subscribeEvents st S).state.subscribedEvents = {WILDCARD} ∧
      (subscribeEvents st S).state.unsubKeys =
        insert WILDCARD (st.unsubKeys \ st.subscribedEvents) ∧
      (subscribeEvents st S).subOps = 1 ∧
      (subscribeEvents st S).unsubOps = st.subscribedEvents.card) ∧
    ((subscribeEvents initialMux {WILDCARD}).state.subscribedEvents =
        {WILDCARD} ∧
      (subscribeEvents (subscribeEvents initialMux {WILDCARD}).state
          {"lights_on"}).subOps = 3 ∧
      (subscribeEvents (subscribeEvents initialMux {WILDCARD}).state
          {"lights_on"}).unsubOps = 1 ∧
      (subscribeEvents (subscribeEvents initialMux {WILDCARD}).state
          {"lights_on"}).state.subscribedEvents =
        {"lights_on", "state_changed", "nodered"}) := by
  refine ⟨fun hsub => by simp [subscribeEvents, hS, hsub], fun hsub => ?_, by decide⟩
  have hrm : st.subscribedEvents.filter (fun e => e ≠ WILDCARD) =
      st.subscribedEvents := by
    apply Finset.filter_true_of_mem
    intro x hx hxw
    exact hsub (hxw ▸ hx)
  refine ⟨?_, ?_, ?_, ?_⟩
  · simp [subscribeEvents, hS, hsub, hrm]
  · simp [subscribeEvents, hS, hsub, hrm]
  · simp [subscribeEvents, hS, hsub]
  · simp [subscribeEvents, hS, hsub, hrm]

/-- C3 witness: the amended wildcard behaviour at a concrete state with one
concrete active subscription. -/
theorem subscribeEvents_wildcard_witness :
    (WILDCARD ∈ (⟨{"state_changed"}, {"state_changed"}⟩ : MuxState).subscribedEvents →
      subscribeEvents ⟨{"state_changed"}, {"state_changed"}⟩ {WILDCARD} =
        ⟨⟨{"state_changed"}, {"state_changed"}⟩, 0, 0⟩) ∧
    (WILDCARD ∉ (⟨{"state_changed"}, {"state_changed"}⟩ : MuxState).subscribedEvents →
      (subscribeEvents ⟨{"state_changed"}, {"state_changed"}⟩ {WILDCARD}).state.subscribedEvents =
        {WILDCARD} ∧
      (subscribeEvents ⟨{"state_changed"}, {"state_changed"}⟩ {WILDCARD}).state.unsubKeys =
        insert WILDCARD (({"state_changed"} : Finset String) \ {"state_changed"}) ∧
      (subscribeEvents ⟨{"state_changed"}, {"state_changed"}⟩ {WILDCARD}).subOps = 1 ∧
      (subscribeEvents ⟨{"state_changed"}, {"state_changed"}⟩ {WILDCARD}).unsubOps =
        ({"state_changed"} : Finset String).card) ∧
    ((subscribeEvents initialMux {WILDCARD}).state.subscribedEvents =
        {WILDCARD} ∧
      (subscribeEvents (subscribeEvents initialMux {WILDCARD}).state
          {"lights_on"}).subOps = 3 ∧
      (subscribeEvents (subscribeEvents initialMux {WILDCARD}).state
          {"lights_on"}).unsubOps = 1 ∧
      (subscribeEvents (subscribeEvents initialMux {WILDCARD}).state
          {"lights_on"}).state.subscribedEvents =
        {"lights_on", "state_changed", "nodered"}) :=
  subscribeEvents_wildcard ⟨{"state_changed"}, {"state_changed"}⟩ {WILDCARD}
    (Finset.mem_singleton_self WILDCARD)


/-- Every key of a heap is below `freshRef`. -/
theorem le_foldr_max (l : List Nat) (x : Nat) (hx : x ∈ l) :
    x ≤ l.foldr max 0 := by
  induction l with
  | nil => cases hx
  | cons a t ih =>
    rcases List.mem_cons.mp hx with h | h
    · subst h; exact le_max_left _ _
    · exact le_trans (ih h) (le_max_right _ _)

/-- A reference matching no key reads as absent. -/
theorem heapGet_none_of_ne (h : Heap) (r : Nat) (hne : ∀ p ∈ h, p.1 ≠ r) :
    heapGet h r = none := by
  induction h with
  | nil => rfl
  | cons p t ih =>
    simp only [heapGet]
    rw [if_neg (hne p (List.mem_cons_self p t))]
    exact ih (fun q hq => hne q (List.mem_cons_of_mem p hq))

/-- A fresh reference is not present in the heap. -/
theorem heapGet_freshRef (h : Heap) : heapGet h (freshRef h) = none := by
  apply heapGet_none_of_ne
  intro p hp he
  have hm : p.1 ∈ h.map Prod.fst := List.mem_map_of_mem Prod.fst hp
  have hle := le_foldr_max (h.map Prod.fst) p.1 hm
  simp only [freshRef] at he
  omega

/-- Writing a field of the object at the head of an extended heap does not
change any object that already existed. -/
theorem heapGet_setField_fresh (h : Heap) (o : JObj) (r : Nat) (k : String)
    (v : JVal) (hr : heapGet h r ≠ none) :
    heapGet (setField ((freshRef h, o) :: h) (freshRef h) k v) r = heapGet h r := by
  have hne : freshRef h ≠ r := by
    intro he
    exact hr (he ▸ heapGet_freshRef h)
  simp only [setField, if_pos rfl, heapGet, if_neg hne]


/-- C4 counterexample: the spread copies are shallow.  From a cache whose
mapping (ref 0) holds entity `'light.kitchen'` as a reference to record 1,
`getStates()` returns a fresh object (ref 2) whose entry still references
record 1; mutating `returned['light.kitchen'].state` through that shared
reference changes what a subsequent `getStates('light.kitchen')` returns
(from `'on'` to `'off'`). -/
theorem getStates_shallow_copy_counterexample :
    getStatesH [(0, [("light.kitchen", JVal.ref 1)]),
        (1, [("state", JVal.prim "on")])] 0 none =
      ((2, [("light.kitchen", JVal.ref 1)]) ::
        [(0, [("light.kitchen", JVal.ref 1)]), (1, [("state", JVal.prim "on")])],
       JVal.ref 2) ∧
    objGet [("light.kitchen", JVal.ref 1)] "light.kitchen" =
      some (JVal.ref 1) ∧
    (getStatesH [(0, [("light.kitchen", JVal.ref 1)]),
        (1, [("state", JVal.prim "on")])] 0 (some "light.kitchen")).2 =
      JVal.ref 2 ∧
    heapGet (getStatesH [(0, [("light.kitchen", JVal.ref 1)]),
        (1, [("state", JVal.prim "on")])] 0 (some "light.kitchen")).1 2 =
      some [("state", JVal.prim "on")] ∧
    (getStatesH (setField ((2, [("light.kitchen", JVal.ref 1)]) ::
        [(0, [("light.kitchen", JVal.ref 1)]), (1, [("state", JVal.prim "on")])])
        1 "state" (JVal.prim "off")) 0 (some "light.kitchen")).2 = JVal.ref 3 ∧
    heapGet (getStatesH (setField ((2, [("light.kitchen", JVal.ref 1)]) ::
        [(0, [("light.kitchen", JVal.ref 1)]), (1, [("state", JVal.prim "on")])])
        1 "state" (JVal.prim "off")) 0 (some "light.kitchen")).1 3 =
      some [("state", JVal.prim "off")] := by decide

/-- C4 amended: the structures `getStates`/`getServices` return are fresh
top-level spread copies — writing a field directly on the returned object
never changes any pre-existing heap object (in particular neither the
cache's mapping nor any entity record), so top-level mutation by the caller
cannot affect a subsequent call; the copy is shallow, however, so nested
records stay shared with the cache. -/
theorem getStates_top_level_copy (h : Heap) (statesRef servicesRef er : Nat)
    (id : String) (so svo ro : JObj) (r : Nat) (k : String) (v : JVal)
    (hso : heapGet h statesRef = some so)
    (hsvo : heapGet h servicesRef = some svo)
    (hid : objGet so id = some (JVal.ref er))
    (her : heapGet h er = some ro)
    (hr : heapGet h r ≠ none) :
    getStatesH h statesRef none =
      ((freshRef h, so) :: h, JVal.ref (freshRef h)) ∧
    heapGet (setField ((freshRef h, so) :: h) (freshRef h) k v) r =
      heapGet h r ∧
    getServicesH h servicesRef =
      ((freshRef h, svo) :: h, JVal.ref (freshRef h)) ∧
    heapGet (setField ((freshRef h, svo) :: h) (freshRef h) k v) r =
      heapGet h r ∧
    getStatesH h statesRef (some id) =
      ((freshRef h, ro) :: h, JVal.ref (freshRef h)) ∧
    heapGet (setField ((freshRef h, ro) :: h) (freshRef h) k v) r =
      heapGet h r := by
  refine ⟨?_, heapGet_setField_fresh h so r k v hr, ?_,
    heapGet_setField_fresh h svo r k v hr, ?_,
    heapGet_setField_fresh h ro r k v hr⟩
  · simp [getStatesH, hso, alloc]
  · simp [getServicesH, hsvo, alloc]
  · simp [getStatesH, hso, hid, her, alloc]

/-- C4 witness: the amended top-level-copy discipline at a concrete
two-object cache heap. -/
theorem getStates_top_level_copy_witness :
    getStatesH [(0, [("e", JVal.ref 1)]), (1, [("state", JVal.prim "on")])] 0
        none =
      ((freshRef [(0, [("e", JVal.ref 1)]), (1, [("state", JVal.prim "on")])],
          [("e", JVal.ref 1)]) ::
        [(0, [("e", JVal.ref 1)]), (1, [("state", JVal.prim "on")])],
       JVal.ref (freshRef [(0, [("e", JVal.ref 1)]),
          (1, [("state", JVal.prim "on")])])) ∧
    heapGet (setField ((freshRef [(0, [("e", JVal.ref 1)]),
          (1, [("state", JVal.prim "on")])], [("e", JVal.ref 1)]) ::
        [(0, [("e", JVal.ref 1)]), (1, [("state", JVal.prim "on")])])
        (freshRef [(0, [("e", JVal.ref 1)]), (1, [("state", JVal.prim "on")])])
        "x" (JVal.prim "y")) 0 =
      heapGet [(0, [("e", JVal.ref 1)]), (1, [("state", JVal.prim "on")])] 0 ∧
    getServicesH [(0, [("e", JVal.ref 1)]), (1, [("state", JVal.prim "on")])]
        0 =
      ((freshRef [(0, [("e", JVal.ref 1)]), (1, [("state", JVal.prim "on")])],
          [("e", JVal.ref 1)]) ::
        [(0, [("e", JVal.ref 1)]), (1, [("state", JVal.prim "on")])],
       JVal.ref (freshRef [(0, [("e", JVal.ref 1)]),
          (1, [("state", JVal.prim "on")])])) ∧
    heapGet (setField ((freshRef [(0, [("e", JVal.ref 1)]),
          (1, [("state", JVal.prim "on")])], [("e", JVal.ref 1)]) ::
        [(0, [("e", JVal.ref 1)]), (1, [("state", JVal.prim "on")])])
        (freshRef [(0, [("e", JVal.ref 1)]), (1, [("state", JVal.prim "on")])])
        "x" (JVal.prim "y")) 0 =
      heapGet [(0, [("e", JVal.ref 1)]), (1, [("state", JVal.prim "on")])] 0 ∧
    getStatesH [(0, [("e", JVal.ref 1)]), (1, [("state", JVal.prim "on")])] 0
        (some "e") =
      ((freshRef [(0, [("e", JVal.ref 1)]), (1, [("state", JVal.prim "on")])],
          [("state", JVal.prim "on")]) ::
        [(0, [("e", JVal.ref 1)]), (1, [("state", JVal.prim "on")])],
       JVal.ref (freshRef [(0, [("e", JVal.ref 1)]),
          (1, [("state", JVal.prim "on")])])) ∧
    heapGet (setField ((freshRef [(0, [("e", JVal.ref 1)]),
          (1, [("state", JVal.prim "on")])], [("state", JVal.prim "on")]) ::
        [(0, [("e", JVal.ref 1)]), (1, [("state", JVal.prim "on")])])
        (freshRef [(0, [("e", JVal.ref 1)]), (1, [("state", JVal.prim "on")])])
        "x" (JVal.prim "y")) 0 =
      heapGet [(0, [("e", JVal.ref 1)]), (1, [("state", JVal.prim "on")])] 0 :=
  getStates_top_level_copy
    [(0, [("e", JVal.ref 1)]), (1, [("state", JVal.prim "on")])] 0 0 1 "e"
    [("e", JVal.ref 1)] [("e", JVal.ref 1)] [("state", JVal.prim "on")] 0 "x"
    (JVal.prim "y") (by decide) (by decide) (by decide) (by decide) (by decide)


/-- C9: after a non-empty bulk application, an empty or missing bulk-states
payload leaves the snapshot mapping unchanged and emits nothing (so the
one-time loaded notification is not re-fired); the same holds for bulk
services. -/
theorem bulk_empty_noop (c : StatesCache) (d : ServicesCache)
    (m n : List (String × String)) (hm : m ≠ []) (hn : n ≠ []) :
    (onClientStates c (some m)).1.states = m ∧
    onClientStates (onClientStates c (some m)).1 none =
      ((onClientStates c (some m)).1, []) ∧
    onClientStates (onClientStates c (some m)).1 (some []) =
      ((onClientStates c (some m)).1, []) ∧
    (onClientServices d (some n)).1.services = n ∧
    onClientServices (onClientServices d (some n)).1 none =
      ((onClientServices d (some n)).1, []) ∧
    onClientServices (onClientServices d (some n)).1 (some []) =
      ((onClientServices d (some n)).1, []) := by
  have hm' : ¬(m.length = 0) := by simpa using hm
  have hn' : ¬(n.length = 0) := by simpa using hn
  refine ⟨?_, rfl, rfl, ?_, rfl, rfl⟩
  · by_cases hl : c.statesLoaded <;> simp [onClientStates, hm', hl]
  · by_cases hl : d.servicesLoaded <;> simp [onClientServices, hn', hl]

/-- C9 witness: a concrete non-empty bulk application followed by empty
ones. -/
theorem bulk_empty_noop_witness :
    (onClientStates ⟨[], false⟩ (some [("e", "on")])).1.states = [("e", "on")] ∧
    onClientStates (onClientStates ⟨[], false⟩ (some [("e", "on")])).1 none =
      ((onClientStates ⟨[], false⟩ (some [("e", "on")])).1, []) ∧
    onClientStates (onClientStates ⟨[], false⟩ (some [("e", "on")])).1
        (some []) =
      ((onClientStates ⟨[], false⟩ (some [("e", "on")])).1, []) ∧
    (onClientServices ⟨[], false⟩ (some [("light", "turn_on")])).1.services =
      [("light", "turn_on")] ∧
    onClientServices
        (onClientServices ⟨[], false⟩ (some [("light", "turn_on")])).1 none =
      ((onClientServices ⟨[], false⟩ (some [("light", "turn_on")])).1, []) ∧
    onClientServices
        (onClientServices ⟨[], false⟩ (some [("light", "turn_on")])).1
        (some []) =
      ((onClientServices ⟨[], false⟩ (some [("light", "turn_on")])).1, []) :=
  bulk_empty_noop ⟨[], false⟩ ⟨[], false⟩ [("e", "on")] [("light", "turn_on")]
    (by decide) (by decide)

/-- A write to the entity map is visible at the written id. -/
theorem entGet_entSet_self (s : List (String × String)) (id v : String) :
    entGet (entSet s id v) id = some v := by
  induction s with
  | nil => simp [entSet, entGet]
  | cons p t ih =>
    obtain ⟨k, w⟩ := p
    by_cases hp : k = id
    · simp [entSet, hp, entGet]
    · simp [entSet, hp, entGet, ih]

/-- C8: a `state_changed` frame with a truthy entity id and a populated
new-state first overwrites that entity's record in the snapshot cache and
only then performs the per-frame publications, the catch-all
`ha_events:all` emission included; applying the actions that precede the
first emission already makes the cache return the new state. -/
theorem state_changed_updates_before_publish (msg : HaEventMsg)
    (E v : String) (dt : Option String) (ver : Nat)
    (s0 : List (String × String))
    (hd : msg.data = some (HaData.obj (some E) (some v) dt ver))
    (hE : E ≠ "") (ht : msg.event_type = some "state_changed") :
    onClientEvents (some msg) =
      [DispatchAct.setState E v,
       DispatchAct.emit "ha_events:state_changed",
       DispatchAct.emit ("ha_events:state_changed:" ++ E),
       DispatchAct.emit "ha_events:all"] ∧
    (onClientEvents (some msg)).takeWhile (fun a => !(isEmit a)) =
      [DispatchAct.setState E v] ∧
    entGet (applyActs s0
        ((onClientEvents (some msg)).takeWhile (fun a => !(isEmit a)))) E =
      some v := by
  have hlist : onClientEvents (some msg) =
      [DispatchAct.setState E v,
       DispatchAct.emit "ha_events:state_changed",
       DispatchAct.emit ("ha_events:state_changed:" ++ E),
       DispatchAct.emit "ha_events:all"] := by
    simp [onClientEvents, hd, ht, optTruthy, hE]
  refine ⟨hlist, ?_, ?_⟩
  · rw [hlist]
    simp [isEmit, List.takeWhile]
  · rw [hlist]
    simp [isEmit, List.takeWhile, applyActs, entGet_entSet_self]

/-- C8 witness: a concrete `state_changed` frame against the empty cache. -/
theorem state_changed_updates_before_publish_witness :
    onClientEvents (some ⟨some "state_changed",
        some (HaData.obj (some "light.k") (some "on") none 0)⟩) =
      [DispatchAct.setState "light.k" "on",
       DispatchAct.emit "ha_events:state_changed",
       DispatchAct.emit ("ha_events:state_changed:" ++ "light.k"),
       DispatchAct.emit "ha_events:all"] ∧
    (onClientEvents (some ⟨some "state_changed",
        some (HaData.obj (some "light.k") (some "on") none 0)⟩)).takeWhile
        (fun a => !(isEmit a)) =
      [DispatchAct.setState "light.k" "on"] ∧
    entGet (applyActs []
        ((onClientEvents (some ⟨some "state_changed",
          some (HaData.obj (some "light.k") (some "on") none 0)⟩)).takeWhile
          (fun a => !(isEmit a)))) "light.k" =
      some "on" :=
  state_changed_updates_before_publish
    ⟨some "state_changed", some (HaData.obj (some "light.k") (some "on") none 0)⟩
    "light.k" "on" none 0 [] rfl (by decide) rfl

/-- C5: receiving `auth_invalid` during the handshake closes the socket,
rejects the connect attempt with the invalid-auth error, and the following
close event schedules no retry timer. -/
theorem auth_invalid_rejects_no_retry (s : HsState)
    (hm : s.attempt.msgL = true) (hc : s.attempt.closeL = true)
    (ht : s.retryTimers = []) :
    (step s (SockEv.msg AuthMsg.auth_invalid)).attempt.closeRequested = true ∧
    (step (step s (SockEv.msg AuthMsg.auth_invalid)) SockEv.close).outcome =
      some HsOutcome.rejectedInvalidAuth ∧
    (step (step s (SockEv.msg AuthMsg.auth_invalid)) SockEv.close).retryTimers =
      [] := by
  simp [step, hm, hc, handleClose, ht]

/-- C5 witness: the first socket attempt of a fresh supervisor. -/
theorem auth_invalid_rejects_no_retry_witness :
    (step (startConnect initialHs)
        (SockEv.msg AuthMsg.auth_invalid)).attempt.closeRequested = true ∧
    (step (step (startConnect initialHs) (SockEv.msg AuthMsg.auth_invalid))
        SockEv.close).outcome = some HsOutcome.rejectedInvalidAuth ∧
    (step (step (startConnect initialHs) (SockEv.msg AuthMsg.auth_invalid))
        SockEv.close).retryTimers = [] :=
  auth_invalid_rejects_no_retry (startConnect initialHs) rfl rfl rfl


/-- One retry round from a quiescent attempt: the close schedules the 5000
ms timer and its firing starts the next attempt with a fresh socket. -/
theorem retryCycle_eq (t : HsState) (hc : t.attempt.closeL = true)
    (hia : t.attempt.invalidAuth = false) (ht : t.retryTimers = []) :
    retryCycle t =
      { t with
          attempt := freshAttempt
          retryTimers := []
          connects := t.connects + 1
          connecting := true } := by
  simp [retryCycle, step, hc, handleClose, hia, fireRetry, ht, startConnect]

/-- Iterating retry rounds keeps exactly zero pending timers between
rounds, keeps the attempt retryable, and counts one new `connect` per
round — with no bound on the number of rounds. -/
theorem retryCycle_iterate (n : Nat) (s : HsState)
    (hc : s.attempt.closeL = true) (hia : s.attempt.invalidAuth = false)
    (ht : s.retryTimers = []) :
    (retryCycle^[n] s).connects = s.connects + n ∧
    (retryCycle^[n] s).retryTimers = [] ∧
    (retryCycle^[n] s).attempt.closeL = true ∧
    (retryCycle^[n] s).attempt.invalidAuth = false ∧
    (1 ≤ n → (retryCycle^[n] s).connecting = true ∧
      (retryCycle^[n] s).attempt = freshAttempt) := by
  induction n with
  | zero =>
    simp only [Function.iterate_zero, id_eq]
    exact ⟨by omega, ht, hc, hia, fun h1 => absurd h1 (by omega)⟩
  | succ n ih =>
    obtain ⟨h1, h2, h3, h4, _⟩ := ih
    rw [Function.iterate_succ_apply', retryCycle_eq _ h3 h4 h2]
    refine ⟨?_, rfl, rfl, rfl, fun _ => ⟨rfl, rfl⟩⟩
    simp [h1]
    omega

/-- C6: a handshake-phase close (or error) without the invalid-auth flag
schedules exactly one 5-second (5000 ms) retry timer; a duplicate close, or
an error followed by close, still yields exactly one timer; firing the
timer starts a new connect attempt (CONNECTING emitted, fresh listeners,
one more `connect` invocation, no timer left pending); and retry rounds
iterate without any maximum count. -/
theorem close_retry_policy (s : HsState) (n : Nat)
    (hc : s.attempt.closeL = true) (he : s.attempt.errL = true)
    (hia : s.attempt.invalidAuth = false) (ht : s.retryTimers = []) :
    (step s SockEv.close).retryTimers = [5000] ∧
    (step (step s SockEv.close) SockEv.close).retryTimers = [5000] ∧
    (step (step s SockEv.error) SockEv.close).retryTimers = [5000] ∧
    (fireRetry (step s SockEv.close)).attempt = freshAttempt ∧
    (fireRetry (step s SockEv.close)).connects = s.connects + 1 ∧
    (fireRetry (step s SockEv.close)).connecting = true ∧
    (fireRetry (step s SockEv.close)).retryTimers = [] ∧
    (retryCycle^[n] s).connects = s.connects + n ∧
    (retryCycle^[n] s).retryTimers = [] ∧
    (1 ≤ n → (retryCycle^[n] s).connecting = true ∧
      (retryCycle^[n] s).attempt = freshAttempt) := by
  obtain ⟨g1, g2, g3, g4, g5⟩ := retryCycle_iterate n s hc hia ht
  refine ⟨?_, ?_, ?_, ?_, ?_, ?_, ?_, g1, g2, g5⟩ <;>
    simp [step, hc, he, hia, handleClose, ht, fireRetry, startConnect]

/-- C6 witness: two retry rounds from the first socket attempt of a fresh
supervisor. -/
theorem close_retry_policy_witness :
    (step (startConnect initialHs) SockEv.close).retryTimers = [5000] ∧
    (step (step (startConnect initialHs) SockEv.close)
        SockEv.close).retryTimers = [5000] ∧
    (step (step (startConnect initialHs) SockEv.error)
        SockEv.close).retryTimers = [5000] ∧
    (fireRetry (step (startConnect initialHs) SockEv.close)).attempt =
      freshAttempt ∧
    (fireRetry (step (startConnect initialHs) SockEv.close)).connects =
      (startConnect initialHs).connects + 1 ∧
    (fireRetry (step (startConnect initialHs) SockEv.close)).connecting =
      true ∧
    (fireRetry (step (startConnect initialHs) SockEv.close)).retryTimers =
      [] ∧
    (retryCycle^[2] (startConnect initialHs)).connects =
      (startConnect initialHs).connects + 2 ∧
    (retryCycle^[2] (startConnect initialHs)).retryTimers = [] ∧
    (1 ≤ 2 → (retryCycle^[2] (startConnect initialHs)).connecting = true ∧
      (retryCycle^[2] (startConnect initialHs)).attempt = freshAttempt) :=
  close_retry_policy (startConnect initialHs) 2 rfl rfl rfl rfl

/-- C7: after a successful handshake, a user record with `is_admin ===
false` makes `connect` set the ERROR state, close the client connection and
reject with the insufficient-privilege error; and since `auth_ok` detached
all handshake listeners, a later close or error of that socket schedules no
retry. -/
theorem insufficient_privilege_terminal (user : HaUser) (s : HsState)
    (h : user.is_admin = JsVal.jbool false) (hm : s.attempt.msgL = true) :
    (connectRun (Except.ok ()) user).1.connectionState = ConnectionSt.ERROR ∧
    (connectRun (Except.ok ()) user).1.clientClosed = true ∧
    (connectRun (Except.ok ()) user).2 =
      ConnectResult.failure
        "User required to have admin privileges in Home Assistant" ∧
    step (step s (SockEv.msg AuthMsg.auth_ok)) SockEv.close =
      step s (SockEv.msg AuthMsg.auth_ok) ∧
    step (step s (SockEv.msg AuthMsg.auth_ok)) SockEv.error =
      step s (SockEv.msg AuthMsg.auth_ok) := by
  refine ⟨?_, ?_, ?_, ?_, ?_⟩ <;> simp [connectRun, h, step, hm]

/-- C7 witness: a non-admin user against the first socket attempt of a
fresh supervisor. -/
theorem insufficient_privilege_terminal_witness :
    (connectRun (Except.ok ()) ⟨JsVal.jbool false⟩).1.connectionState =
      ConnectionSt.ERROR ∧
    (connectRun (Except.ok ()) ⟨JsVal.jbool false⟩).1.clientClosed = true ∧
    (connectRun (Except.ok ()) ⟨JsVal.jbool false⟩).2 =
      ConnectResult.failure
        "User required to have admin privileges in Home Assistant" ∧
    step (step (startConnect initialHs) (SockEv.msg AuthMsg.auth_ok))
        SockEv.close =
      step (startConnect initialHs) (SockEv.msg AuthMsg.auth_ok) ∧
    step (step (startConnect initialHs) (SockEv.msg AuthMsg.auth_ok))
        SockEv.error =
      step (startConnect initialHs) (SockEv.msg AuthMsg.auth_ok) :=
  insufficient_privilege_terminal ⟨JsVal.jbool false⟩ (startConnect initialHs)
    rfl rfl

/-- C10: the privilege gate rejects only on the strict boolean `false`:
for any user record whose `is_admin` is undefined (or absent), null, true,
a number or a string, `connect` proceeds to CONNECTED and returns
success. -/
theorem privilege_gate_strict_false (user : HaUser)
    (h : user.is_admin ≠ JsVal.jbool false) :
    connectRun (Except.ok ()) user =
      (⟨ConnectionSt.CONNECTED, false, true⟩, ConnectResult.success) := by
  simp [connectRun, h]

/-- C10 witness: a user record with `is_admin` undefined connects
successfully. -/
theorem privilege_gate_strict_false_witness :
    connectRun (Except.ok ()) ⟨JsVal.undef⟩ =
      (⟨ConnectionSt.CONNECTED, false, true⟩, ConnectResult.success) :=
  privilege_gate_strict_false ⟨JsVal.undef⟩ (by decide)

end HaWs
